import Mathlib

/-!
# DAC control services of android_device_lge_flashlmdd

A shallow embedding of the two HIDL service backends

* `DacAdvancedControl.cpp` (sysfs files of the ES9218 driver plus a property mirror), and
* `DacHalControl.cpp` (parameters forwarded to the vendor audio HAL plus a property mirror),

followed by theorems about them.

Conventions of the embedding.

* `int32_t` values are `Int`; `isInt32` is the range of the type.
* A C++ object is a record holding its member variables together with the
  operating-system state its methods touch (files, property store, audio HAL).
  A method returns its C++ result and the record afterwards.
* A method that can end in an exception or in an out-of-bounds access returns
  `Except Fault _`.
* A local variable that is returned without ever being assigned is `none`.
* A `float` is a `FloatValue` (NaN, infinities, negative zero, exact finite numbers)
  with the comparison of the hardware; `std::stof` is a field of `Config`.
* Constants that live in the headers `DacAdvancedControl.h` / `DacHalControl.h`
  (paths, property names, HAL keys, defaults) are the fields of `Config`.
-/

namespace Dac

/-! ## Faults -/

/-- Ways in which a call can end without returning: the two exceptions of
`std::stoi` / `std::stof`, and an access outside a vector. -/
inductive Fault where
  | invalid_argument
  | out_of_range
  | out_of_bounds
deriving DecidableEq, Repr

deriving instance DecidableEq for Except

/-! ## Integers and their decimal text -/

def INT32_MIN : Int := -2147483648

def INT32_MAX : Int := 2147483647

/-- The values of `int32_t`. -/
def isInt32 (v : Int) : Prop := INT32_MIN ≤ v ∧ v ≤ INT32_MAX

instance (v : Int) : Decidable (isInt32 v) := by
  unfold isInt32
  infer_instance

/-- The character of a decimal digit. -/
def digitChar (d : Nat) : Char := Char.ofNat (48 + d)

/-- Decimal digits of `n`, most significant first, pushed in front of `acc`. -/
def decimalCore : Nat → Nat → List Char → List Char
  | 0, _, acc => acc
  | fuel + 1, n, acc =>
    if n / 10 = 0 then digitChar (n % 10) :: acc
    else decimalCore fuel (n / 10) (digitChar (n % 10) :: acc)

/-- Decimal digits of a natural number. -/
def decimal (n : Nat) : List Char := decimalCore (n + 1) n []

/-- Text produced by `std::to_string(int)` and by `ostream << int`: an optional
minus sign and the decimal digits. -/
def to_string (value : Int) : String :=
  if value < 0 then String.mk ('-' :: decimal value.natAbs) else String.mk (decimal value.natAbs)

/-- White space of the C locale (`isspace`). -/
def isspace (c : Char) : Bool :=
  c = ' ' || c = '\t' || c = '\n' || c = '\x0b' || c = '\x0c' || c = '\r'

def isdigit (c : Char) : Bool := 48 ≤ c.toNat && c.toNat ≤ 57

/-- Value of the longest run of decimal digits at the front of the input. -/
def readDigits : List Char → Nat → Nat
  | [], acc => acc
  | c :: cs, acc => if isdigit c then readDigits cs (10 * acc + (c.toNat - 48)) else acc

/-- An optional sign followed by at least one digit; whatever follows the digits
is ignored. `none` when no digit is found. -/
def readSigned : List Char → Option Int
  | [] => none
  | '-' :: cs =>
    match cs with
    | [] => none
    | d :: _ => if isdigit d then some (-(readDigits cs 0 : Int)) else none
  | '+' :: cs =>
    match cs with
    | [] => none
    | d :: _ => if isdigit d then some (readDigits cs 0 : Int) else none
  | d :: cs => if isdigit d then some (readDigits (d :: cs) 0 : Int) else none

/-- Base-10 integer conversion shared by `strtol` and by `istream >> int`: leading
white space is skipped, then `readSigned`. -/
def parseInteger (text : String) : Option Int := readSigned (text.data.dropWhile isspace)

/-- The call `std::stoi(str)`: throws `invalid_argument` when no conversion can be
done and `out_of_range` when the value does not fit an `int`. -/
def stoi (str : String) : Except Fault Int :=
  match parseInteger str with
  | none => .error .invalid_argument
  | some n => if INT32_MIN ≤ n ∧ n ≤ INT32_MAX then .ok n else .error .out_of_range

/-- The extraction `stream >> result` for an `int32_t`: `none` when the stream ends
up with `failbit` set (no digits, or a value outside the type). -/
def extractInt (text : String) : Option Int :=
  match parseInteger text with
  | none => none
  | some n => if INT32_MIN ≤ n ∧ n ≤ INT32_MAX then some n else none

/-! ## HIDL data types -/

/-- A table entry; the source builds it from two strings and reads the second one as
`value`. -/
structure KeyValue where
  name : String
  value : String
deriving DecidableEq, Repr

/-- A key/value parameter of the audio HAL. -/
structure ParameterValue where
  key : String
  value : String
deriving DecidableEq, Repr

/-- Values of the C++ type `float`, as far as the comparisons `<` and `>` tell them
apart: NaN, the two infinities, the negative zero, and the finite numbers as exact
rationals (`finite 0` is the positive zero). -/
inductive FloatValue where
  | nan
  | negInf
  | negZero
  | finite (q : ℚ)
  | posInf
deriving DecidableEq

/-- The comparison `a < b` on `float`: false as soon as one side is NaN, the two zeros
compare equal. -/
def FloatValue.lt : FloatValue → FloatValue → Bool
  | .nan, _ => false
  | _, .nan => false
  | _, .negInf => false
  | .negInf, _ => true
  | .posInf, _ => false
  | _, .posInf => true
  | .negZero, .negZero => false
  | .negZero, .finite q => decide (0 < q)
  | .finite p, .negZero => decide (p < 0)
  | .finite p, .finite q => decide (p < q)

/-- The struct `Range` is declared in `types.hal`, outside the two source files, so the
type of its fields is not known here. A field is kept as the `float` value it compares
as; what assigning a `float` to a field does to the value is `Config.toRangeField`. -/
structure Range where
  min : FloatValue
  max : FloatValue
  step : FloatValue
deriving DecidableEq

/-- A `FeatureStates` starts with an empty `states` vector and a `range` nobody has
written (`none`). -/
structure FeatureStates where
  range : Option Range
  states : List KeyValue
deriving DecidableEq

/-- Result codes of the audio HAL. -/
inductive Result where
  | OK
  | NOT_INITIALIZED
  | INVALID_ARGUMENTS
  | INVALID_STATE
  | NOT_SUPPORTED
deriving DecidableEq, Repr

/-- Features of `DacAdvancedControl`. `other` is any enumerator value the source file
does not name. -/
inductive AdvancedFeature where
  | AVCVolume
  | HifiMode
  | other (raw : Int)
deriving DecidableEq, Repr

/-- Features of `DacHalControl`. `other` is any enumerator value the source file does
not name. -/
inductive HalFeature where
  | QuadDAC
  | DigitalFilter
  | SoundPreset
  | BalanceLeft
  | BalanceRight
  | other (raw : Int)
deriving DecidableEq, Repr

/-- Constants and library functions the two source files take from elsewhere. -/
structure Config where
  AVC_VOLUME : String
  HIFI_MODE : String
  PROPERTY_HIFI_DAC_AVC_VOLUME : String
  PROPERTY_HIFI_DAC_MODE : String
  AVC_VOLUME_DEFAULT : Int
  HIFI_MODE_DEFAULT : Int
  DAC_COMMAND : String
  SET_DAC_ON_COMMAND : String
  SET_DAC_OFF_COMMAND : String
  SET_DIGITAL_FILTER_COMMAND : String
  SET_SOUND_PRESET_COMMAND : String
  SET_LEFT_BALANCE_COMMAND : String
  SET_RIGHT_BALANCE_COMMAND : String
  PROPERTY_HIFI_DAC_ENABLED : String
  PROPERTY_DIGITAL_FILTER : String
  PROPERTY_SOUND_PRESET : String
  PROPERTY_LEFT_BALANCE : String
  PROPERTY_RIGHT_BALANCE : String
  /-- The call `std::stof`: the `float` it returns (NaN and the infinities included),
  or the exception it throws. -/
  stof : String → Except Fault FloatValue
  /-- The value a field of `Range` holds after a `float` has been assigned to it (the
  identity when the field is a `float`, a truncation when it is an integer). -/
  toRangeField : FloatValue → FloatValue

/-! ## Operating-system state -/

/-- The Android property store. `value key` is the text stored under `key` (empty
when unset); `status key value` is what `property_set key value` answers, `0` meaning
that the store takes the value. -/
structure PropertyStore where
  value : String → String
  status : String → String → Int

/-- The call `property_set(key, value)`: the status, and the store afterwards. -/
def property_set (p : PropertyStore) (key value : String) : Int × PropertyStore :=
  if p.status key value = 0 then
    (0, { p with value := fun k => if k = key then value else p.value k })
  else (p.status key value, p)

/-- The call `property_get(key, buffer, default_value)`: the stored text, or the
default when nothing (or the empty text) is stored. -/
def property_get (p : PropertyStore) (key default_value : String) : String :=
  if p.value key = "" then default_value else p.value key

/-- Files of the sysfs tree. `content path` is what a reader gets (`none` when the
file cannot be opened); `writable path` tells whether an output stream on `path`
opens and its text lands in the file. -/
structure FileSystem where
  content : String → Option String
  writable : String → Bool

/-- The audio HAL behind `mAudioClient`. The answer to `setParameters` may depend on
everything sent before. -/
structure AudioHal where
  getParameters : List String → Result × List ParameterValue
  setParameters : List (List ParameterValue) → List ParameterValue → Result

/-! ## DacAdvancedControl.cpp -/

/-- The helper `set<int32_t>(path, value)`: open an output stream on `path` and write
the text of `value`. Nothing happens when the stream does not open. -/
def set (fs : FileSystem) (path : String) (value : Int) : FileSystem :=
  if fs.writable path then
    { fs with content := fun p => if p = path then some (to_string value) else fs.content p }
  else fs

/-- The helper `get<int32_t>(path, def)`: read one integer from the file at `path`;
`def` when the stream has failed (closed file, or no integer to extract). -/
def get (fs : FileSystem) (path : String) (dflt : Int) : Int :=
  match fs.content path with
  | none => dflt
  | some text =>
    match extractInt text with
    | none => dflt
    | some result => result

def hifi_modes : List KeyValue :=
  [⟨"Normal", "0"⟩, ⟨"High Impedance", "1"⟩, ⟨"AUX", "2"⟩]

/-- The object `DacAdvancedControl` (members `mDacBasePath`,
`mSupportedAdvancedFeatures`) with the files and the property store it works on. -/
structure DacAdvancedControl where
  mDacBasePath : String
  mSupportedAdvancedFeatures : List AdvancedFeature
  files : FileSystem
  props : PropertyStore

namespace DacAdvancedControl

def getAvcVolumeStates : FeatureStates :=
  { range := some { min := .finite (-24), max := .finite 0, step := .finite 1 }, states := [] }

def getHifiModeStates : FeatureStates :=
  { range := none, states := hifi_modes }

/-- The reply handed to the callback, `none` when the callback is not called. -/
def getSupportedAdvancedFeatureValues (s : DacAdvancedControl) (feature : AdvancedFeature) :
    Option FeatureStates :=
  if feature ∈ s.mSupportedAdvancedFeatures then
    match feature with
    | .AVCVolume => some getAvcVolumeStates
    | .HifiMode => some getHifiModeStates
    | _ => none
  else none

/-- Writes the file, then returns the status of `property_set` cast to `bool`. -/
def writeAvcVolumeState (cfg : Config) (s : DacAdvancedControl) (value : Int) :
    Bool × DacAdvancedControl :=
  let files := set s.files (s.mDacBasePath ++ cfg.AVC_VOLUME) value
  let r := property_set s.props cfg.PROPERTY_HIFI_DAC_AVC_VOLUME (to_string value)
  (decide (r.1 ≠ 0), { s with files := files, props := r.2 })

/-- Writes the file, then returns the status of `property_set` cast to `bool`. -/
def writeHifiModeState (cfg : Config) (s : DacAdvancedControl) (value : Int) :
    Bool × DacAdvancedControl :=
  let files := set s.files (s.mDacBasePath ++ cfg.HIFI_MODE) value
  let r := property_set s.props cfg.PROPERTY_HIFI_DAC_MODE (to_string value)
  (decide (r.1 ≠ 0), { s with files := files, props := r.2 })

def setFeatureValue (cfg : Config) (s : DacAdvancedControl) (feature : AdvancedFeature)
    (value : Int) : Bool × DacAdvancedControl :=
  if feature ∉ s.mSupportedAdvancedFeatures then (false, s)
  else
    match feature with
    | .AVCVolume => writeAvcVolumeState cfg s value
    | .HifiMode => writeHifiModeState cfg s value
    | _ => (false, s)

/-- The loop over `hifi_modes` in `getFeatureValue`: `ret` is assigned at the first
entry whose value, read with `std::stoi`, equals `val`; it stays unassigned when the
loop runs to its end. -/
def hifiModeLoop (val : Int) : List KeyValue → Except Fault (Option Int)
  | [] => .ok none
  | kv :: rest =>
    match stoi kv.value with
    | .error e => .error e
    | .ok n => if val = n then .ok (some val) else hifiModeLoop val rest

/-- Returns `some r` for the returned number `r` and `none` when the local `ret` is
returned without having been assigned. -/
def getFeatureValue (cfg : Config) (s : DacAdvancedControl) (feature : AdvancedFeature) :
    Except Fault (Option Int) :=
  if feature ∉ s.mSupportedAdvancedFeatures then .ok (some (-1))
  else
    match feature with
    | .AVCVolume => .ok (some (get s.files (s.mDacBasePath ++ cfg.AVC_VOLUME) cfg.AVC_VOLUME_DEFAULT))
    | .HifiMode =>
      hifiModeLoop (get s.files (s.mDacBasePath ++ cfg.HIFI_MODE) cfg.HIFI_MODE_DEFAULT) hifi_modes
    | _ => .ok none

end DacAdvancedControl

/-! ## DacHalControl.cpp -/

def quaddac_states : List KeyValue := [⟨"Off", "0"⟩, ⟨"On", "1"⟩]

def sound_presets : List KeyValue :=
  [⟨"Normal", "0"⟩, ⟨"Enhanced", "1"⟩, ⟨"Detailed", "2"⟩, ⟨"Live", "3"⟩, ⟨"Bass", "4"⟩]

def digital_filters : List KeyValue := [⟨"Short", "0"⟩, ⟨"Sharp", "1"⟩, ⟨"Slow", "2"⟩]

/-- The call `std::map::emplace(key, value)`: the map keeps what it already holds under
`key`. -/
def emplace (m : HalFeature → Option FeatureStates) (key : HalFeature) (value : FeatureStates) :
    HalFeature → Option FeatureStates :=
  fun k => if k = key then (match m key with | some old => some old | none => some value) else m k

/-- The object `DacHalControl` (members `mSupportedHalFeatures`, `mSupportedStates`,
`mAudioClient`) with the property store it works on. `sent` lists the argument of
every `setParameters` call made so far. -/
structure DacHalControl where
  mSupportedHalFeatures : List HalFeature
  mSupportedStates : HalFeature → Option FeatureStates
  mAudioClient : AudioHal
  sent : List (List ParameterValue)
  props : PropertyStore

namespace DacHalControl

/-- The parameter `pv` and the name `property` as they stand when `setFeatureValue`
reaches the `setParameters` call; `none` on the path `default: return false`. -/
def setTarget (cfg : Config) (feature : HalFeature) (value : Int) :
    Option (ParameterValue × String) :=
  if feature = .QuadDAC then
    some ({ key := cfg.DAC_COMMAND,
            value := if value = 0 then cfg.SET_DAC_OFF_COMMAND
                     else if value = 1 then cfg.SET_DAC_ON_COMMAND else "" },
          cfg.PROPERTY_HIFI_DAC_ENABLED)
  else
    match feature with
    | .DigitalFilter =>
      some ({ key := cfg.SET_DIGITAL_FILTER_COMMAND, value := to_string value },
            cfg.PROPERTY_DIGITAL_FILTER)
    | .SoundPreset =>
      some ({ key := cfg.SET_SOUND_PRESET_COMMAND, value := to_string value },
            cfg.PROPERTY_SOUND_PRESET)
    | .BalanceLeft =>
      some ({ key := cfg.SET_LEFT_BALANCE_COMMAND, value := to_string value },
            cfg.PROPERTY_LEFT_BALANCE)
    | .BalanceRight =>
      some ({ key := cfg.SET_RIGHT_BALANCE_COMMAND, value := to_string value },
            cfg.PROPERTY_RIGHT_BALANCE)
    | _ => none

def setFeatureValue (cfg : Config) (s : DacHalControl) (feature : HalFeature) (value : Int) :
    Bool × DacHalControl :=
  if feature ∉ s.mSupportedHalFeatures then (false, s)
  else
    match setTarget cfg feature value with
    | none => (false, s)
    | some (pv, property) =>
      let ret := s.mAudioClient.setParameters s.sent [pv]
      let s1 := { s with sent := s.sent ++ [[pv]] }
      if ret = .OK then
        (true, { s1 with props := (property_set s1.props property pv.value).2 })
      else (false, s1)

def getFeatureValue (cfg : Config) (s : DacHalControl) (feature : HalFeature) :
    Except Fault Int :=
  if feature ∉ s.mSupportedHalFeatures then .ok (-1)
  else if feature = .QuadDAC then
    let value := property_get s.props cfg.PROPERTY_HIFI_DAC_ENABLED "off"
    if value = "off" then .ok 0
    else if value = "on" then .ok 1
    else .ok 0
  else
    match feature with
    | .DigitalFilter => stoi (property_get s.props cfg.PROPERTY_DIGITAL_FILTER "0")
    | .SoundPreset => stoi (property_get s.props cfg.PROPERTY_SOUND_PRESET "0")
    | .BalanceLeft => stoi (property_get s.props cfg.PROPERTY_LEFT_BALANCE "0")
    | .BalanceRight => stoi (property_get s.props cfg.PROPERTY_RIGHT_BALANCE "0")
    | _ => .ok 0

def getSupportedHalFeatures (s : DacHalControl) : List HalFeature := s.mSupportedHalFeatures

/-- The reply handed to the callback, `none` when the callback is not called. -/
def getSupportedHalFeatureValues (s : DacHalControl) (feature : HalFeature) :
    Option FeatureStates :=
  s.mSupportedStates feature

/-- The statement `setFeatureValue(feature, getFeatureValue(feature))` that ends every
callback of the constructor. -/
def resend (cfg : Config) (s : DacHalControl) (feature : HalFeature) : Except Fault DacHalControl :=
  match getFeatureValue cfg s feature with
  | .error e => .error e
  | .ok v => .ok (setFeatureValue cfg s feature v).2

/-- Records `states` for `feature` in the map and in the list, then resends the
current value. -/
def publish (cfg : Config) (s : DacHalControl) (feature : HalFeature) (states : FeatureStates) :
    Except Fault DacHalControl :=
  resend cfg
    { s with mSupportedStates := emplace s.mSupportedStates feature states,
             mSupportedHalFeatures := s.mSupportedHalFeatures ++ [feature] }
    feature

/-- The two nested loops of the DigitalFilter and SoundPreset callbacks: for every
parameter of the reply, in order, every table entry with the same value string is
pushed to the back of `fstates`. -/
def matchTable (table : List KeyValue) (b : List ParameterValue) : List KeyValue :=
  b.foldl
    (fun fstates pv =>
      table.foldl (fun fstates kv => if pv.value = kv.value then fstates ++ [kv] else fstates)
        fstates)
    []

/-- The loop `for (int i = 1; i < b.size(); i++)` of the balance callbacks, run over
the elements from index 1 on; `lo` and `hi` are `range.min` and `range.max`. -/
def balanceLoop (cfg : Config) :
    List ParameterValue → FloatValue → FloatValue → Except Fault (FloatValue × FloatValue)
  | [], lo, hi => .ok (lo, hi)
  | pv :: rest, lo, hi =>
    match cfg.stof pv.value with
    | .error e => .error e
    | .ok val =>
      if val.lt lo then balanceLoop cfg rest (cfg.toRangeField val) hi
      else if hi.lt val then balanceLoop cfg rest lo (cfg.toRangeField val)
      else balanceLoop cfg rest lo hi

/-- The range computed by the BalanceLeft and BalanceRight callbacks. Element 0 of an
empty reply lies outside the vector. -/
def balanceRange (cfg : Config) : List ParameterValue → Except Fault Range
  | [] => .error .out_of_bounds
  | first :: rest =>
    match cfg.stof first.value with
    | .error e => .error e
    | .ok v0 =>
      match balanceLoop cfg rest (cfg.toRangeField v0) (cfg.toRangeField v0) with
      | .error e => .error e
      | .ok (lo, hi) => .ok { min := lo, max := hi, step := .finite 1 }

/-- Callback of `getParameters(DAC_COMMAND)`. -/
def onDacCommand (cfg : Config) (s : DacHalControl) (a : Result) (b : List ParameterValue) :
    Except Fault DacHalControl :=
  if a ≠ .OK then .ok s
  else
    publish cfg s .QuadDAC
      { range := none, states := b.map (fun pv => { name := pv.key, value := pv.value }) }

/-- Callback of `getParameters(SET_DIGITAL_FILTER_COMMAND)`. -/
def onDigitalFilter (cfg : Config) (s : DacHalControl) (a : Result) (b : List ParameterValue) :
    Except Fault DacHalControl :=
  if a ≠ .OK then .ok s
  else publish cfg s .DigitalFilter { range := none, states := matchTable digital_filters b }

/-- Callback of `getParameters(SET_SOUND_PRESET_COMMAND)`. -/
def onSoundPreset (cfg : Config) (s : DacHalControl) (a : Result) (b : List ParameterValue) :
    Except Fault DacHalControl :=
  if a ≠ .OK then .ok s
  else publish cfg s .SoundPreset { range := none, states := matchTable sound_presets b }

/-- Callback of `getParameters(SET_LEFT_BALANCE_COMMAND)`. -/
def onLeftBalance (cfg : Config) (s : DacHalControl) (a : Result) (b : List ParameterValue) :
    Except Fault DacHalControl :=
  if a ≠ .OK then .ok s
  else
    match balanceRange cfg b with
    | .error e => .error e
    | .ok range => publish cfg s .BalanceLeft { range := some range, states := [] }

/-- Callback of `getParameters(SET_RIGHT_BALANCE_COMMAND)`. -/
def onRightBalance (cfg : Config) (s : DacHalControl) (a : Result) (b : List ParameterValue) :
    Except Fault DacHalControl :=
  if a ≠ .OK then .ok s
  else
    match balanceRange cfg b with
    | .error e => .error e
    | .ok range => publish cfg s .BalanceRight { range := some range, states := [] }

/-- The object before the first statement of the constructor. -/
def fresh (hal : AudioHal) (props : PropertyStore) : DacHalControl :=
  { mSupportedHalFeatures := [], mSupportedStates := fun _ => none, mAudioClient := hal,
    sent := [], props := props }

/-- The constructor `DacHalControl::DacHalControl()`: five `getParameters` calls, each
answered once through its callback. -/
def construct (cfg : Config) (hal : AudioHal) (props : PropertyStore) :
    Except Fault DacHalControl :=
  (onDacCommand cfg (fresh hal props) (hal.getParameters [cfg.DAC_COMMAND]).1
    (hal.getParameters [cfg.DAC_COMMAND]).2).bind fun s1 =>
  (onDigitalFilter cfg s1 (hal.getParameters [cfg.SET_DIGITAL_FILTER_COMMAND]).1
    (hal.getParameters [cfg.SET_DIGITAL_FILTER_COMMAND]).2).bind fun s2 =>
  (onSoundPreset cfg s2 (hal.getParameters [cfg.SET_SOUND_PRESET_COMMAND]).1
    (hal.getParameters [cfg.SET_SOUND_PRESET_COMMAND]).2).bind fun s3 =>
  (onLeftBalance cfg s3 (hal.getParameters [cfg.SET_LEFT_BALANCE_COMMAND]).1
    (hal.getParameters [cfg.SET_LEFT_BALANCE_COMMAND]).2).bind fun s4 =>
  onRightBalance cfg s4 (hal.getParameters [cfg.SET_RIGHT_BALANCE_COMMAND]).1
    (hal.getParameters [cfg.SET_RIGHT_BALANCE_COMMAND]).2

/-- The four RPC methods of the service. -/
inductive Call where
  | setFeatureValue (feature : HalFeature) (value : Int)
  | getFeatureValue (feature : HalFeature)
  | getSupportedHalFeatures
  | getSupportedHalFeatureValues (feature : HalFeature)

/-- The object after one RPC call. The three getters write no member and no
operating-system state. -/
def call (cfg : Config) (s : DacHalControl) : Call → Except Fault DacHalControl
  | .setFeatureValue feature value => .ok (setFeatureValue cfg s feature value).2
  | .getFeatureValue feature =>
    match getFeatureValue cfg s feature with
    | .error e => .error e
    | .ok _ => .ok s
  | .getSupportedHalFeatures => .ok s
  | .getSupportedHalFeatureValues _ => .ok s

/-- The object after a sequence of RPC calls. -/
def run (cfg : Config) (s : DacHalControl) : List Call → Except Fault DacHalControl
  | [] => .ok s
  | c :: rest =>
    match call cfg s c with
    | .error e => .error e
    | .ok s1 => run cfg s1 rest

/-- The states a service object can be in: built by the constructor, then any number
of RPC calls. -/
def Reachable (cfg : Config) (s : DacHalControl) : Prop :=
  ∃ hal props calls s0, construct cfg hal props = .ok s0 ∧ run cfg s0 calls = .ok s

end DacHalControl

end Dac

/-! ## Predicates on service objects -/

namespace Dac

/-- The five features the constructor can publish, in the order of its callbacks. -/
def publishOrder : List HalFeature :=
  [.QuadDAC, .DigitalFilter, .SoundPreset, .BalanceLeft, .BalanceRight]

/-- The list of supported features is taken, in order and without repetition, from
`fs`, and it names exactly the keys of the map. -/
def Tracks (fs : List HalFeature) (s : DacHalControl) : Prop :=
  List.Sublist s.mSupportedHalFeatures fs ∧
  ∀ g, g ∈ s.mSupportedHalFeatures ↔ (s.mSupportedStates g).isSome = true

end Dac

/-! ## Concrete values used to evaluate the services -/

namespace Dac

/-- A choice of the header constants. Its `stof` reads integral texts and the text
`nan`; the fields of `Range` keep a `float` as it is. -/
def sampleConfig : Config :=
  { AVC_VOLUME := "/avc_volume"
    HIFI_MODE := "/headset_type"
    PROPERTY_HIFI_DAC_AVC_VOLUME := "persist.vendor.audio.hifi.avc"
    PROPERTY_HIFI_DAC_MODE := "persist.vendor.audio.hifi.mode"
    AVC_VOLUME_DEFAULT := -14
    HIFI_MODE_DEFAULT := 0
    DAC_COMMAND := "hifi_dac"
    SET_DAC_ON_COMMAND := "on"
    SET_DAC_OFF_COMMAND := "off"
    SET_DIGITAL_FILTER_COMMAND := "ess_filter"
    SET_SOUND_PRESET_COMMAND := "sound_preset"
    SET_LEFT_BALANCE_COMMAND := "left_balance"
    SET_RIGHT_BALANCE_COMMAND := "right_balance"
    PROPERTY_HIFI_DAC_ENABLED := "persist.vendor.audio.hifi.on"
    PROPERTY_DIGITAL_FILTER := "persist.vendor.audio.hifi.filter"
    PROPERTY_SOUND_PRESET := "persist.vendor.audio.hifi.preset"
    PROPERTY_LEFT_BALANCE := "persist.vendor.audio.hifi.left"
    PROPERTY_RIGHT_BALANCE := "persist.vendor.audio.hifi.right"
    stof := fun str =>
      if str = "nan" then .ok .nan
      else
        match parseInteger str with
        | some n => .ok (.finite (n : ℚ))
        | none => .error .invalid_argument
    toRangeField := fun x => x }

/-- An empty property store that takes every write. -/
def openStore : PropertyStore := { value := fun _ => "", status := fun _ _ => 0 }

/-- An empty property store that refuses every write with status `-1`. -/
def closedStore : PropertyStore := { value := fun _ => "", status := fun _ _ => -1 }

/-- A sysfs tree where every file can be written and reads as the text `7`. -/
def sampleFiles : FileSystem := { content := fun _ => some "7", writable := fun _ => true }

/-- A `DacAdvancedControl` that supports both of its features. -/
def sampleAdvanced : DacAdvancedControl :=
  { mDacBasePath := "/sys/es9218/0048"
    mSupportedAdvancedFeatures := [.AVCVolume, .HifiMode]
    files := sampleFiles
    props := openStore }

/-- A `DacAdvancedControl` without any supported feature. -/
def bareAdvanced : DacAdvancedControl :=
  { mDacBasePath := ""
    mSupportedAdvancedFeatures := []
    files := sampleFiles
    props := openStore }

/-- An audio HAL that knows every key but the sound preset and accepts every
`setParameters` call. -/
def sampleHal : AudioHal :=
  { getParameters := fun keys =>
      if keys = ["hifi_dac"] then (.OK, [⟨"hifi_dac", "on"⟩, ⟨"hifi_dac", "off"⟩])
      else if keys = ["ess_filter"] then
        (.OK, [⟨"ess_filter", "2"⟩, ⟨"ess_filter", "7"⟩, ⟨"ess_filter", "0"⟩])
      else if keys = ["left_balance"] then
        (.OK, [⟨"left_balance", "-3"⟩, ⟨"left_balance", "-12"⟩, ⟨"left_balance", "0"⟩])
      else if keys = ["right_balance"] then
        (.OK, [⟨"right_balance", "0"⟩, ⟨"right_balance", "-12"⟩, ⟨"right_balance", "-5"⟩])
      else (.NOT_SUPPORTED, [])
    setParameters := fun _ _ => .OK }

/-- An audio HAL that knows no key and refuses every `setParameters` call. -/
def deafHal : AudioHal :=
  { getParameters := fun _ => (.NOT_SUPPORTED, [])
    setParameters := fun _ _ => .INVALID_ARGUMENTS }

/-- The service built on `sampleHal` over an empty, writable property store. -/
def sampleService : DacHalControl :=
  match DacHalControl.construct sampleConfig sampleHal openStore with
  | .ok s => s
  | .error _ => DacHalControl.fresh sampleHal openStore

/-- The service built on `sampleHal` over a property store that refuses writes. -/
def mutedService : DacHalControl :=
  match DacHalControl.construct sampleConfig sampleHal closedStore with
  | .ok s => s
  | .error _ => DacHalControl.fresh sampleHal closedStore

end Dac

/-! # Theorems -/

namespace Dac

/-! ## Decimal text is read back as the number it was written from -/

theorem isdigit_digitChar (d : Nat) (h : d < 10) :
    isdigit (digitChar d) = true ∧ (digitChar d).toNat - 48 = d := by
  interval_cases d <;> exact ⟨by decide, by decide⟩

theorem isspace_of_isdigit (c : Char) (h : isdigit c = true) : isspace c = false := by
  have h1 : 48 ≤ c.toNat := by
    simp only [isdigit, Bool.and_eq_true, decide_eq_true_eq] at h
    exact h.1
  simp only [isspace, Bool.or_eq_false_iff, decide_eq_false_iff_not]
  refine ⟨⟨⟨⟨⟨?_, ?_⟩, ?_⟩, ?_⟩, ?_⟩, ?_⟩ <;> (intro hc; rw [hc] at h1; revert h1; decide)

/-- Reading a run that consists of digits only folds the whole run. -/
theorem readDigits_all (l : List Char) (h : ∀ c ∈ l, isdigit c = true) (a : Nat) :
    readDigits l a = l.foldl (fun a c => 10 * a + (c.toNat - 48)) a := by
  induction l generalizing a with
  | nil => rfl
  | cons c cs ih =>
    have hc : isdigit c = true := h c (List.mem_cons_self _ _)
    simp only [readDigits, hc, if_true, List.foldl_cons]
    exact ih (fun x hx => h x (List.mem_cons_of_mem _ hx)) _

theorem decimalCore_digits (fuel : Nat) : ∀ (n : Nat) (acc : List Char),
    (∀ c ∈ acc, isdigit c = true) → ∀ c ∈ decimalCore fuel n acc, isdigit c = true := by
  induction fuel with
  | zero => intro n acc h; simpa [decimalCore] using h
  | succ fuel ih =>
    intro n acc h
    have hd : isdigit (digitChar (n % 10)) = true :=
      (isdigit_digitChar _ (Nat.mod_lt _ (by decide))).1
    have h2 : ∀ c ∈ digitChar (n % 10) :: acc, isdigit c = true := by
      intro c hc
      rcases List.mem_cons.mp hc with rfl | hc
      · exact hd
      · exact h c hc
    unfold decimalCore
    split
    · exact h2
    · exact ih _ _ h2

theorem decimalCore_value (fuel : Nat) : ∀ (n : Nat) (acc : List Char), n < fuel →
    (decimalCore fuel n acc).foldl (fun a c => 10 * a + (c.toNat - 48)) 0
      = acc.foldl (fun a c => 10 * a + (c.toNat - 48)) n := by
  induction fuel with
  | zero => intro n acc h; exact absurd h (Nat.not_lt_zero _)
  | succ fuel ih =>
    intro n acc hn
    have hv : (digitChar (n % 10)).toNat - 48 = n % 10 :=
      (isdigit_digitChar _ (Nat.mod_lt _ (by decide))).2
    unfold decimalCore
    split
    · rename_i h0
      simp only [List.foldl_cons, hv]
      congr 1
      omega
    · rename_i h0
      rw [ih (n / 10) _ (by omega)]
      simp only [List.foldl_cons, hv]
      congr 1
      omega

theorem decimalCore_cons (fuel n : Nat) (acc : List Char) :
    ∃ d rest, decimalCore (fuel + 1) n acc = d :: rest := by
  induction fuel generalizing n acc with
  | zero =>
    unfold decimalCore
    split
    · exact ⟨_, _, rfl⟩
    · exact ⟨_, _, rfl⟩
  | succ fuel ih =>
    unfold decimalCore
    split
    · exact ⟨_, _, rfl⟩
    · exact ih _ _

/-- The decimal text of a natural number: a digit, then digits, with the number as
value. -/
theorem decimal_spec (n : Nat) :
    ∃ d rest, decimal n = d :: rest ∧ isdigit d = true ∧ readDigits (d :: rest) 0 = n := by
  obtain ⟨d, rest, h⟩ := decimalCore_cons n n []
  have hall : ∀ c ∈ decimal n, isdigit c = true :=
    decimalCore_digits _ _ _ (by simp)
  refine ⟨d, rest, h, ?_, ?_⟩
  · exact hall d (by rw [decimal, h]; exact List.mem_cons_self _ _)
  · have h1 := readDigits_all (decimal n) hall 0
    have h2 := decimalCore_value (n + 1) n [] (Nat.lt_succ_self n)
    simp only [List.foldl_nil] at h2
    rw [decimal, h] at h1
    rw [h1, ← h]
    exact h2

theorem readSigned_digits (d : Char) (rest : List Char) (hd : isdigit d = true) :
    readSigned (d :: rest) = some (readDigits (d :: rest) 0 : Int) := by
  have hminus : d ≠ '-' := by
    intro h
    rw [h] at hd
    revert hd
    decide
  have hplus : d ≠ '+' := by
    intro h
    rw [h] at hd
    revert hd
    decide
  unfold readSigned
  split
  · rename_i heq
    cases heq
  · rename_i heq
    injection heq with h1 h2
    exact absurd h1 hminus
  · rename_i heq
    injection heq with h1 h2
    exact absurd h1 hplus
  · rename_i d1 cs1 _ _ heq
    injection heq with h1 h2
    subst h1
    subst h2
    simp only [hd, if_true]

theorem readSigned_minus (d : Char) (rest : List Char) (hd : isdigit d = true) :
    readSigned ('-' :: d :: rest) = some (-(readDigits (d :: rest) 0 : Int)) := by
  simp only [readSigned, hd, if_true]

/-- Parsing the text of `to_string v` gives `v` back, for every integer. -/
theorem parseInteger_to_string (v : Int) : parseInteger (to_string v) = some v := by
  obtain ⟨d, rest, hdec, hd, hval⟩ := decimal_spec v.natAbs
  have hsp : isspace d = false := isspace_of_isdigit d hd
  unfold parseInteger to_string
  split
  · rename_i hneg
    have h1 : List.dropWhile isspace ('-' :: decimal v.natAbs) = '-' :: d :: rest := by
      rw [hdec]
      rfl
    simp only [h1, readSigned_minus d rest hd, hval]
    congr 1
    omega
  · rename_i hneg
    have h1 : List.dropWhile isspace (decimal v.natAbs) = d :: rest := by
      rw [hdec, List.dropWhile_cons, hsp]
      rfl
    simp only [h1, readSigned_digits d rest hd, hval]
    congr 1
    omega

theorem stoi_to_string (v : Int) (hv : isInt32 v) : stoi (to_string v) = .ok v := by
  unfold stoi
  rw [parseInteger_to_string]
  exact if_pos hv

theorem extractInt_to_string (v : Int) (hv : isInt32 v) : extractInt (to_string v) = some v := by
  unfold extractInt
  rw [parseInteger_to_string]
  exact if_pos hv

/-- The text of `to_string v` is never empty. -/
theorem to_string_ne_empty (v : Int) : to_string v ≠ "" := by
  obtain ⟨d, rest, hdec, _, _⟩ := decimal_spec v.natAbs
  unfold to_string
  split
  · intro h
    have := congrArg String.data h
    simp at this
  · intro h
    have := congrArg String.data h
    rw [hdec] at this
    simp at this

/-! ## DacAdvancedControl -/

namespace DacAdvancedControl

theorem hifiModeLoop_table (v : Int) :
    hifiModeLoop v hifi_modes
      = .ok (if v = 0 then some v else if v = 1 then some v else if v = 2 then some v else none) := by
  have h0 : stoi "0" = .ok 0 := by decide
  have h1 : stoi "1" = .ok 1 := by decide
  have h2 : stoi "2" = .ok 2 := by decide
  simp only [hifi_modes, hifiModeLoop, h0, h1, h2]
  split_ifs <;> rfl

/-- C9: with HifiMode supported and `v` the integer that `get` reads from the hifi mode
file (or `HIFI_MODE_DEFAULT` when the read fails), `getFeatureValue(HifiMode)` returns
`v` when `v` is 0, 1 or 2, and otherwise returns its local `ret` unassigned; so the
result is defined exactly when `v` is 0, 1 or 2. -/
theorem getFeatureValue_hifiMode_from_table (cfg : Config) (s : DacAdvancedControl)
    (hs : AdvancedFeature.HifiMode ∈ s.mSupportedAdvancedFeatures) :
    ∃ v : Int, v = get s.files (s.mDacBasePath ++ cfg.HIFI_MODE) cfg.HIFI_MODE_DEFAULT ∧
      (∀ text n, s.files.content (s.mDacBasePath ++ cfg.HIFI_MODE) = some text →
        extractInt text = some n → v = n) ∧
      (∀ text, s.files.content (s.mDacBasePath ++ cfg.HIFI_MODE) = some text →
        extractInt text = none → v = cfg.HIFI_MODE_DEFAULT) ∧
      (s.files.content (s.mDacBasePath ++ cfg.HIFI_MODE) = none → v = cfg.HIFI_MODE_DEFAULT) ∧
      (v = 0 ∨ v = 1 ∨ v = 2 → getFeatureValue cfg s .HifiMode = .ok (some v)) ∧
      (¬ (v = 0 ∨ v = 1 ∨ v = 2) → getFeatureValue cfg s .HifiMode = .ok none) ∧
      ((∃ r, getFeatureValue cfg s .HifiMode = .ok (some r)) ↔ (v = 0 ∨ v = 1 ∨ v = 2)) := by
  have hg : getFeatureValue cfg s .HifiMode
      = hifiModeLoop (get s.files (s.mDacBasePath ++ cfg.HIFI_MODE) cfg.HIFI_MODE_DEFAULT)
          hifi_modes := by
    simp only [getFeatureValue, hs, not_true_eq_false, if_false]
  rw [hg, hifiModeLoop_table]
  have hpos : ∀ v : Int, (v = 0 ∨ v = 1 ∨ v = 2) →
      (Except.ok (if v = 0 then some v else if v = 1 then some v else if v = 2 then some v
        else none) : Except Fault (Option Int)) = .ok (some v) := by
    intro v hv
    rcases hv with h | h | h <;> simp [h]
  have hneg : ∀ v : Int, ¬ (v = 0 ∨ v = 1 ∨ v = 2) →
      (Except.ok (if v = 0 then some v else if v = 1 then some v else if v = 2 then some v
        else none) : Except Fault (Option Int)) = .ok none := by
    intro v hv
    simp only [not_or] at hv
    simp [hv.1, hv.2.1, hv.2.2]
  refine ⟨_, rfl, ?_, ?_, ?_, hpos _, hneg _, ?_⟩
  · intro text n h1 h2
    simp only [get, h1, h2]
  · intro text h1 h2
    simp only [get, h1, h2]
  · intro h1
    simp only [get, h1]
  · constructor
    · rintro ⟨r, hr⟩
      by_contra hv
      rw [hneg _ hv] at hr
      cases hr
    · intro hv
      exact ⟨_, hpos _ hv⟩

theorem getFeatureValue_hifiMode_from_table_witness :
    AdvancedFeature.HifiMode ∈ sampleAdvanced.mSupportedAdvancedFeatures ∧
    ∃ v : Int, v = get sampleAdvanced.files
        (sampleAdvanced.mDacBasePath ++ sampleConfig.HIFI_MODE) sampleConfig.HIFI_MODE_DEFAULT ∧
      ((∃ r, getFeatureValue sampleConfig sampleAdvanced .HifiMode = .ok (some r)) ↔
        (v = 0 ∨ v = 1 ∨ v = 2)) := by
  refine ⟨by decide, ?_⟩
  obtain ⟨v, h1, _, _, _, _, _, h7⟩ :=
    getFeatureValue_hifiMode_from_table sampleConfig sampleAdvanced (by decide)
  exact ⟨v, h1, h7⟩

/-- C5: with AVCVolume supported and the AVC volume file behaving as a plain store,
`setFeatureValue(AVCVolume, v)` leaves the decimal text of `v` in the file for every
`int32_t` value `v` (no range is checked), a following `getFeatureValue(AVCVolume)`
returns `v`, and `getFeatureValue(AVCVolume)` returns `AVC_VOLUME_DEFAULT` whenever
the file holds no readable integer or cannot be opened. -/
theorem avcVolume_round_trip (cfg : Config) (s : DacAdvancedControl) (v : Int)
    (hs : AdvancedFeature.AVCVolume ∈ s.mSupportedAdvancedFeatures) (hv : isInt32 v)
    (hstore : s.files.writable (s.mDacBasePath ++ cfg.AVC_VOLUME) = true) :
    (setFeatureValue cfg s .AVCVolume v).2.files.content (s.mDacBasePath ++ cfg.AVC_VOLUME)
        = some (to_string v) ∧
    getFeatureValue cfg (setFeatureValue cfg s .AVCVolume v).2 .AVCVolume = .ok (some v) ∧
    (∀ text, s.files.content (s.mDacBasePath ++ cfg.AVC_VOLUME) = some text →
      extractInt text = none →
      getFeatureValue cfg s .AVCVolume = .ok (some cfg.AVC_VOLUME_DEFAULT)) ∧
    (s.files.content (s.mDacBasePath ++ cfg.AVC_VOLUME) = none →
      getFeatureValue cfg s .AVCVolume = .ok (some cfg.AVC_VOLUME_DEFAULT)) := by
  have hset : (setFeatureValue cfg s .AVCVolume v).2
      = { s with
          files := set s.files (s.mDacBasePath ++ cfg.AVC_VOLUME) v
          props := (property_set s.props cfg.PROPERTY_HIFI_DAC_AVC_VOLUME (to_string v)).2 } := by
    simp only [setFeatureValue, hs, not_true_eq_false, if_false, writeAvcVolumeState]
  have hfile : (set s.files (s.mDacBasePath ++ cfg.AVC_VOLUME) v).content
      (s.mDacBasePath ++ cfg.AVC_VOLUME) = some (to_string v) := by
    simp only [set, hstore, if_true]
  refine ⟨?_, ?_, ?_, ?_⟩
  · rw [hset]
    exact hfile
  · rw [hset]
    simp only [getFeatureValue, hs, not_true_eq_false, if_false, get, hfile,
      extractInt_to_string v hv]
  · intro text h1 h2
    simp only [getFeatureValue, hs, not_true_eq_false, if_false, get, h1, h2]
  · intro h1
    simp only [getFeatureValue, hs, not_true_eq_false, if_false, get, h1]

theorem avcVolume_round_trip_witness :
    AdvancedFeature.AVCVolume ∈ sampleAdvanced.mSupportedAdvancedFeatures ∧ isInt32 5 ∧
    getFeatureValue sampleConfig (setFeatureValue sampleConfig sampleAdvanced .AVCVolume 5).2
      .AVCVolume = .ok (some 5) :=
  ⟨by decide, by decide,
    (avcVolume_round_trip sampleConfig sampleAdvanced 5 (by decide) (by decide) rfl).2.1⟩

/-- On a supported feature the result is the status of `property_set` cast to `bool`. -/
theorem setFeatureValue_fst (cfg : Config) (s : DacAdvancedControl) (v : Int) :
    (AdvancedFeature.AVCVolume ∈ s.mSupportedAdvancedFeatures →
      (setFeatureValue cfg s .AVCVolume v).1
        = decide ((property_set s.props cfg.PROPERTY_HIFI_DAC_AVC_VOLUME (to_string v)).1 ≠ 0)) ∧
    (AdvancedFeature.HifiMode ∈ s.mSupportedAdvancedFeatures →
      (setFeatureValue cfg s .HifiMode v).1
        = decide ((property_set s.props cfg.PROPERTY_HIFI_DAC_MODE (to_string v)).1 ≠ 0)) := by
  constructor
  · intro hs
    simp only [setFeatureValue, hs, not_true_eq_false, if_false, writeAvcVolumeState]
  · intro hs
    simp only [setFeatureValue, hs, not_true_eq_false, if_false, writeHifiModeState]

end DacAdvancedControl

theorem property_set_fst (p : PropertyStore) (key value : String) :
    (property_set p key value).1 = p.status key value := by
  unfold property_set
  split
  · rename_i h
    exact h.symm
  · rfl

theorem property_set_accepted (p : PropertyStore) (key value : String)
    (h : p.status key value = 0) : (property_set p key value).2.value key = value := by
  simp only [property_set, h, if_true]

theorem property_set_refused (p : PropertyStore) (key value : String)
    (h : p.status key value ≠ 0) : (property_set p key value).2 = p := by
  simp only [property_set, h, if_false]

/-! ## DacHalControl: the methods -/

namespace DacHalControl

theorem setFeatureValue_unsupported (cfg : Config) (s : DacHalControl) (f : HalFeature)
    (v : Int) (h : f ∉ s.mSupportedHalFeatures) : setFeatureValue cfg s f v = (false, s) := by
  simp only [setFeatureValue, h, not_false_eq_true, if_true]

theorem setFeatureValue_supported (cfg : Config) (s : DacHalControl) (f : HalFeature) (v : Int)
    (pv : ParameterValue) (property : String) (h : f ∈ s.mSupportedHalFeatures)
    (ht : setTarget cfg f v = some (pv, property)) :
    setFeatureValue cfg s f v =
      if s.mAudioClient.setParameters s.sent [pv] = .OK then
        (true, { s with sent := s.sent ++ [[pv]],
                        props := (property_set s.props property pv.value).2 })
      else (false, { s with sent := s.sent ++ [[pv]] }) := by
  simp only [setFeatureValue, h, not_true_eq_false, if_false, ht]

theorem setFeatureValue_members (cfg : Config) (s : DacHalControl) (f : HalFeature) (v : Int) :
    (setFeatureValue cfg s f v).2.mSupportedHalFeatures = s.mSupportedHalFeatures ∧
    (setFeatureValue cfg s f v).2.mSupportedStates = s.mSupportedStates ∧
    (setFeatureValue cfg s f v).2.mAudioClient = s.mAudioClient := by
  unfold setFeatureValue
  split
  · exact ⟨rfl, rfl, rfl⟩
  · split
    · exact ⟨rfl, rfl, rfl⟩
    · simp only []
      split <;> exact ⟨rfl, rfl, rfl⟩

theorem resend_members (cfg : Config) (s s1 : DacHalControl) (f : HalFeature)
    (h : resend cfg s f = .ok s1) :
    s1.mSupportedHalFeatures = s.mSupportedHalFeatures ∧
    s1.mSupportedStates = s.mSupportedStates ∧ s1.mAudioClient = s.mAudioClient := by
  unfold resend at h
  split at h
  · cases h
  · injection h with h
    rw [← h]
    exact setFeatureValue_members cfg s f _

theorem publish_members (cfg : Config) (s s1 : DacHalControl) (f : HalFeature)
    (st : FeatureStates) (h : publish cfg s f st = .ok s1) :
    s1.mSupportedHalFeatures = s.mSupportedHalFeatures ++ [f] ∧
    s1.mSupportedStates = emplace s.mSupportedStates f st ∧
    s1.mAudioClient = s.mAudioClient :=
  resend_members cfg _ s1 f h

theorem call_members (cfg : Config) (s s1 : DacHalControl) (c : Call)
    (h : call cfg s c = .ok s1) :
    s1.mSupportedHalFeatures = s.mSupportedHalFeatures ∧
    s1.mSupportedStates = s.mSupportedStates ∧ s1.mAudioClient = s.mAudioClient := by
  cases c with
  | setFeatureValue f v =>
    simp only [call, Except.ok.injEq] at h
    rw [← h]
    exact setFeatureValue_members cfg s f v
  | getFeatureValue f =>
    simp only [call] at h
    split at h
    · cases h
    · injection h with h
      rw [← h]
      exact ⟨rfl, rfl, rfl⟩
  | getSupportedHalFeatures =>
    simp only [call, Except.ok.injEq] at h
    rw [← h]
    exact ⟨rfl, rfl, rfl⟩
  | getSupportedHalFeatureValues f =>
    simp only [call, Except.ok.injEq] at h
    rw [← h]
    exact ⟨rfl, rfl, rfl⟩

theorem run_members (cfg : Config) (calls : List Call) : ∀ (s s1 : DacHalControl),
    run cfg s calls = .ok s1 →
    s1.mSupportedHalFeatures = s.mSupportedHalFeatures ∧
    s1.mSupportedStates = s.mSupportedStates ∧ s1.mAudioClient = s.mAudioClient := by
  induction calls with
  | nil =>
    intro s s1 h
    simp only [run, Except.ok.injEq] at h
    rw [← h]
    exact ⟨rfl, rfl, rfl⟩
  | cons c rest ih =>
    intro s s1 h
    simp only [run] at h
    split at h
    · cases h
    · rename_i s2 hc
      obtain ⟨h1, h2, h3⟩ := call_members cfg s s2 c hc
      obtain ⟨k1, k2, k3⟩ := ih s2 s1 h
      exact ⟨k1.trans h1, k2.trans h2, k3.trans h3⟩

/-! ## DacHalControl: the constructor -/

theorem bind_eq_ok {α β : Type} {x : Except Fault α} {f : α → Except Fault β} {b : β}
    (h : x.bind f = .ok b) : ∃ a, x = .ok a ∧ f a = .ok b := by
  cases x with
  | error e => cases h
  | ok a => exact ⟨a, rfl, h⟩

theorem onDacCommand_ok (cfg : Config) (s s1 : DacHalControl) (a : Result)
    (b : List ParameterValue) (h : onDacCommand cfg s a b = .ok s1) :
    (a ≠ .OK ∧ s1 = s) ∨
    (a = .OK ∧ publish cfg s .QuadDAC
      { range := none, states := b.map (fun pv => { name := pv.key, value := pv.value }) }
        = .ok s1) := by
  unfold onDacCommand at h
  split at h
  · rename_i ha
    injection h with h
    exact Or.inl ⟨ha, h.symm⟩
  · rename_i ha
    exact Or.inr ⟨not_not.mp ha, h⟩

theorem onDigitalFilter_ok (cfg : Config) (s s1 : DacHalControl) (a : Result)
    (b : List ParameterValue) (h : onDigitalFilter cfg s a b = .ok s1) :
    (a ≠ .OK ∧ s1 = s) ∨
    (a = .OK ∧ publish cfg s .DigitalFilter
      { range := none, states := matchTable digital_filters b } = .ok s1) := by
  unfold onDigitalFilter at h
  split at h
  · rename_i ha
    injection h with h
    exact Or.inl ⟨ha, h.symm⟩
  · rename_i ha
    exact Or.inr ⟨not_not.mp ha, h⟩

theorem onSoundPreset_ok (cfg : Config) (s s1 : DacHalControl) (a : Result)
    (b : List ParameterValue) (h : onSoundPreset cfg s a b = .ok s1) :
    (a ≠ .OK ∧ s1 = s) ∨
    (a = .OK ∧ publish cfg s .SoundPreset
      { range := none, states := matchTable sound_presets b } = .ok s1) := by
  unfold onSoundPreset at h
  split at h
  · rename_i ha
    injection h with h
    exact Or.inl ⟨ha, h.symm⟩
  · rename_i ha
    exact Or.inr ⟨not_not.mp ha, h⟩

theorem onLeftBalance_ok (cfg : Config) (s s1 : DacHalControl) (a : Result)
    (b : List ParameterValue) (h : onLeftBalance cfg s a b = .ok s1) :
    (a ≠ .OK ∧ s1 = s) ∨
    (a = .OK ∧ ∃ r, balanceRange cfg b = .ok r ∧
      publish cfg s .BalanceLeft { range := some r, states := [] } = .ok s1) := by
  unfold onLeftBalance at h
  split at h
  · rename_i ha
    injection h with h
    exact Or.inl ⟨ha, h.symm⟩
  · rename_i ha
    split at h
    · cases h
    · rename_i r hr
      exact Or.inr ⟨not_not.mp ha, r, hr, h⟩

theorem onRightBalance_ok (cfg : Config) (s s1 : DacHalControl) (a : Result)
    (b : List ParameterValue) (h : onRightBalance cfg s a b = .ok s1) :
    (a ≠ .OK ∧ s1 = s) ∨
    (a = .OK ∧ ∃ r, balanceRange cfg b = .ok r ∧
      publish cfg s .BalanceRight { range := some r, states := [] } = .ok s1) := by
  unfold onRightBalance at h
  split at h
  · rename_i ha
    injection h with h
    exact Or.inl ⟨ha, h.symm⟩
  · rename_i ha
    split at h
    · cases h
    · rename_i r hr
      exact Or.inr ⟨not_not.mp ha, r, hr, h⟩

theorem tracks_fresh (hal : AudioHal) (props : PropertyStore) : Tracks [] (fresh hal props) := by
  refine ⟨List.Sublist.refl _, ?_⟩
  intro g
  simp [fresh]

theorem tracks_skip (fs : List HalFeature) (f : HalFeature) (s : DacHalControl)
    (ht : Tracks fs s) : Tracks (fs ++ [f]) s :=
  ⟨ht.1.trans (List.sublist_append_left fs [f]), ht.2⟩

theorem tracks_publish (cfg : Config) (fs : List HalFeature) (f : HalFeature)
    (s s1 : DacHalControl) (st : FeatureStates) (ht : Tracks fs s) (hf : f ∉ fs)
    (h : publish cfg s f st = .ok s1) :
    Tracks (fs ++ [f]) s1 ∧ s1.mSupportedStates f = some st ∧
    ∀ g, g ≠ f → s1.mSupportedStates g = s.mSupportedStates g := by
  obtain ⟨h1, h2, _⟩ := publish_members cfg s s1 f st h
  have hnot : f ∉ s.mSupportedHalFeatures := fun hm => hf (ht.1.subset hm)
  have hnone : s.mSupportedStates f = none := by
    have := (ht.2 f).not.mp hnot
    cases hm : s.mSupportedStates f with
    | none => rfl
    | some x => rw [hm] at this; exact absurd rfl this
  have hval : s1.mSupportedStates f = some st := by
    rw [h2]
    simp only [emplace, if_true, hnone]
  have hother : ∀ g, g ≠ f → s1.mSupportedStates g = s.mSupportedStates g := by
    intro g hg
    rw [h2]
    simp only [emplace, hg, if_false]
  refine ⟨⟨?_, ?_⟩, hval, hother⟩
  · rw [h1]
    exact List.Sublist.append ht.1 (List.Sublist.refl _)
  · intro g
    rw [h1, List.mem_append, List.mem_singleton]
    by_cases hg : g = f
    · subst hg
      rw [hval]
      simp
    · rw [hother g hg, ← ht.2 g]
      simp [hg]

theorem gate_step (cfg : Config) (fs : List HalFeature) (f : HalFeature) (s s1 : DacHalControl)
    (a : Result) (P : FeatureStates → Prop) (ht : Tracks fs s) (hf : f ∉ fs)
    (h : (a ≠ .OK ∧ s1 = s) ∨ (a = .OK ∧ ∃ st, P st ∧ publish cfg s f st = .ok s1)) :
    Tracks (fs ++ [f]) s1 ∧
    (∀ g, g ≠ f → s1.mSupportedStates g = s.mSupportedStates g) ∧
    (a = .OK → ∃ st, P st ∧ s1.mSupportedStates f = some st) := by
  rcases h with ⟨ha, rfl⟩ | ⟨_, st, hP, hp⟩
  · exact ⟨tracks_skip fs f _ ht, fun _ _ => rfl, fun h => absurd h ha⟩
  · obtain ⟨t, hv, ho⟩ := tracks_publish cfg fs f s s1 st ht hf hp
    exact ⟨t, ho, fun _ => ⟨st, hP, hv⟩⟩

/-- What the constructor leaves behind when it runs to its end. -/
theorem construct_spec (cfg : Config) (hal : AudioHal) (props : PropertyStore)
    (s : DacHalControl) (h : construct cfg hal props = .ok s) :
    Tracks publishOrder s ∧
    (∀ b, hal.getParameters [cfg.DAC_COMMAND] = (.OK, b) →
      s.mSupportedStates .QuadDAC = some
        { range := none, states := b.map (fun pv => { name := pv.key, value := pv.value }) }) ∧
    (∀ b, hal.getParameters [cfg.SET_DIGITAL_FILTER_COMMAND] = (.OK, b) →
      s.mSupportedStates .DigitalFilter
        = some { range := none, states := matchTable digital_filters b }) ∧
    (∀ b, hal.getParameters [cfg.SET_SOUND_PRESET_COMMAND] = (.OK, b) →
      s.mSupportedStates .SoundPreset
        = some { range := none, states := matchTable sound_presets b }) ∧
    (∀ b, hal.getParameters [cfg.SET_LEFT_BALANCE_COMMAND] = (.OK, b) →
      ∃ r, balanceRange cfg b = .ok r ∧
        s.mSupportedStates .BalanceLeft = some { range := some r, states := [] }) ∧
    (∀ b, hal.getParameters [cfg.SET_RIGHT_BALANCE_COMMAND] = (.OK, b) →
      ∃ r, balanceRange cfg b = .ok r ∧
        s.mSupportedStates .BalanceRight = some { range := some r, states := [] }) := by
  unfold construct at h
  obtain ⟨s1, h1, h⟩ := bind_eq_ok h
  obtain ⟨s2, h2, h⟩ := bind_eq_ok h
  obtain ⟨s3, h3, h⟩ := bind_eq_ok h
  obtain ⟨s4, h4, h5⟩ := bind_eq_ok h
  obtain ⟨t1, _, v1⟩ := gate_step cfg [] .QuadDAC _ s1 _
    (fun st => st = FeatureStates.mk none (List.map
      (fun pv => { name := pv.key, value := pv.value }) (hal.getParameters [cfg.DAC_COMMAND]).2))
    (tracks_fresh hal props) (by decide)
    ((onDacCommand_ok cfg _ s1 _ _ h1).imp id (fun x => ⟨x.1, _, rfl, x.2⟩))
  obtain ⟨t2, o2, v2⟩ := gate_step cfg [.QuadDAC] .DigitalFilter s1 s2 _
    (fun st => st = FeatureStates.mk none (matchTable digital_filters
      (hal.getParameters [cfg.SET_DIGITAL_FILTER_COMMAND]).2))
    t1 (by decide)
    ((onDigitalFilter_ok cfg _ s2 _ _ h2).imp id (fun x => ⟨x.1, _, rfl, x.2⟩))
  obtain ⟨t3, o3, v3⟩ := gate_step cfg [.QuadDAC, .DigitalFilter] .SoundPreset s2 s3 _
    (fun st => st = FeatureStates.mk none (matchTable sound_presets
      (hal.getParameters [cfg.SET_SOUND_PRESET_COMMAND]).2))
    t2 (by decide)
    ((onSoundPreset_ok cfg _ s3 _ _ h3).imp id (fun x => ⟨x.1, _, rfl, x.2⟩))
  obtain ⟨t4, o4, v4⟩ := gate_step cfg [.QuadDAC, .DigitalFilter, .SoundPreset] .BalanceLeft
    s3 s4 _
    (fun st => ∃ r, balanceRange cfg (hal.getParameters [cfg.SET_LEFT_BALANCE_COMMAND]).2 = .ok r ∧
      st = { range := some r, states := [] })
    t3 (by decide)
    ((onLeftBalance_ok cfg _ s4 _ _ h4).imp id
      (fun x => ⟨x.1, _, ⟨x.2.choose, x.2.choose_spec.1, rfl⟩, x.2.choose_spec.2⟩))
  obtain ⟨t5, o5, v5⟩ := gate_step cfg [.QuadDAC, .DigitalFilter, .SoundPreset, .BalanceLeft]
    .BalanceRight s4 s _
    (fun st => ∃ r, balanceRange cfg (hal.getParameters [cfg.SET_RIGHT_BALANCE_COMMAND]).2 = .ok r ∧
      st = { range := some r, states := [] })
    t4 (by decide)
    ((onRightBalance_ok cfg _ s _ _ h5).imp id
      (fun x => ⟨x.1, _, ⟨x.2.choose, x.2.choose_spec.1, rfl⟩, x.2.choose_spec.2⟩))
  refine ⟨t5, ?_, ?_, ?_, ?_, ?_⟩
  · intro b hb
    obtain ⟨st, hst, hv⟩ := v1 (by rw [hb])
    rw [o5 _ (by decide), o4 _ (by decide), o3 _ (by decide), o2 _ (by decide), hv, hst, hb]
  · intro b hb
    obtain ⟨st, hst, hv⟩ := v2 (by rw [hb])
    rw [o5 _ (by decide), o4 _ (by decide), o3 _ (by decide), hv, hst, hb]
  · intro b hb
    obtain ⟨st, hst, hv⟩ := v3 (by rw [hb])
    rw [o5 _ (by decide), o4 _ (by decide), hv, hst, hb]
  · intro b hb
    obtain ⟨st, ⟨r, hr, hst⟩, hv⟩ := v4 (by rw [hb])
    rw [hb] at hr
    exact ⟨r, hr, by rw [o5 _ (by decide), hv, hst]⟩
  · intro b hb
    obtain ⟨st, ⟨r, hr, hst⟩, hv⟩ := v5 (by rw [hb])
    rw [hb] at hr
    exact ⟨r, hr, by rw [hv, hst]⟩

/-! ## DacHalControl: the loops of the callbacks -/

theorem matchInner_eq (value : String) (table acc : List KeyValue) :
    table.foldl (fun fstates kv => if value = kv.value then fstates ++ [kv] else fstates) acc
      = acc ++ table.filter (fun kv => decide (kv.value = value)) := by
  induction table generalizing acc with
  | nil => simp
  | cons kv rest ih =>
    rw [List.foldl_cons, ih]
    by_cases h : value = kv.value
    · have h2 : decide (kv.value = value) = true := decide_eq_true h.symm
      rw [if_pos h, List.filter_cons, h2, if_pos rfl, List.append_assoc]
      rfl
    · have h2 : decide (kv.value = value) = false := decide_eq_false (fun e => h e.symm)
      rw [if_neg h, List.filter_cons, h2]
      rfl

theorem matchOuter_eq (table : List KeyValue) (b : List ParameterValue) (acc : List KeyValue) :
    b.foldl
      (fun fstates pv =>
        table.foldl (fun fstates kv => if pv.value = kv.value then fstates ++ [kv] else fstates)
          fstates)
      acc
      = acc ++ b.flatMap (fun pv => table.filter (fun kv => decide (kv.value = pv.value))) := by
  induction b generalizing acc with
  | nil => simp
  | cons pv rest ih =>
    rw [List.foldl_cons, ih, matchInner_eq, List.flatMap_cons, List.append_assoc]

/-- The nested loops collect, reply by reply, the table entries with the reply's
value. -/
theorem matchTable_eq (table : List KeyValue) (b : List ParameterValue) :
    matchTable table b
      = b.flatMap (fun pv => table.filter (fun kv => decide (kv.value = pv.value))) := by
  unfold matchTable
  rw [matchOuter_eq]
  rfl

/-! ## DacHalControl: reachable objects -/

theorem reachable_tracks (cfg : Config) (s : DacHalControl) (h : Reachable cfg s) :
    Tracks publishOrder s := by
  obtain ⟨hal, props, calls, s0, hc, hr⟩ := h
  obtain ⟨t, _⟩ := construct_spec cfg hal props s0 hc
  obtain ⟨h1, h2, _⟩ := run_members cfg calls s0 s hr
  exact ⟨h1 ▸ t.1, fun g => by rw [h1, h2]; exact t.2 g⟩

theorem setTarget_published (cfg : Config) (f : HalFeature) (v : Int) (hf : f ∈ publishOrder) :
    ∃ pv property, setTarget cfg f v = some (pv, property) := by
  simp only [publishOrder, List.mem_cons, List.mem_singleton, List.not_mem_nil, or_false] at hf
  rcases hf with rfl | rfl | rfl | rfl | rfl <;> exact ⟨_, _, rfl⟩

theorem setTarget_mirrored (cfg : Config) (f : HalFeature) (v : Int)
    (hf : f = .DigitalFilter ∨ f = .SoundPreset ∨ f = .BalanceLeft ∨ f = .BalanceRight) :
    ∃ key property, setTarget cfg f v = some ({ key := key, value := to_string v }, property) ∧
      ∀ t : DacHalControl, f ∈ t.mSupportedHalFeatures →
        getFeatureValue cfg t f = stoi (property_get t.props property "0") := by
  rcases hf with rfl | rfl | rfl | rfl
  · refine ⟨_, _, rfl, ?_⟩
    intro t ht
    simp [getFeatureValue, ht]
  · refine ⟨_, _, rfl, ?_⟩
    intro t ht
    simp [getFeatureValue, ht]
  · refine ⟨_, _, rfl, ?_⟩
    intro t ht
    simp [getFeatureValue, ht]
  · refine ⟨_, _, rfl, ?_⟩
    intro t ht
    simp [getFeatureValue, ht]

theorem setFeatureValue_true (cfg : Config) (s : DacHalControl) (f : HalFeature) (v : Int)
    (pv : ParameterValue) (property : String) (h : f ∈ s.mSupportedHalFeatures)
    (ht : setTarget cfg f v = some (pv, property))
    (hret : (setFeatureValue cfg s f v).1 = true) :
    s.mAudioClient.setParameters s.sent [pv] = .OK ∧
    (setFeatureValue cfg s f v).2
      = { s with sent := s.sent ++ [[pv]],
                 props := (property_set s.props property pv.value).2 } := by
  rw [setFeatureValue_supported cfg s f v pv property h ht] at hret ⊢
  by_cases hok : s.mAudioClient.setParameters s.sent [pv] = .OK
  · rw [if_pos hok]
    exact ⟨hok, rfl⟩
  · rw [if_neg hok] at hret
    cases hret

theorem getFeatureValue_quadDAC (cfg : Config) (t : DacHalControl)
    (ht : HalFeature.QuadDAC ∈ t.mSupportedHalFeatures) :
    getFeatureValue cfg t .QuadDAC
      = .ok (if property_get t.props cfg.PROPERTY_HIFI_DAC_ENABLED "off" = "on" then 1 else 0) := by
  simp only [getFeatureValue, ht, not_true_eq_false, if_false, if_true]
  by_cases h1 : property_get t.props cfg.PROPERTY_HIFI_DAC_ENABLED "off" = "off"
  · have h2 : ¬ property_get t.props cfg.PROPERTY_HIFI_DAC_ENABLED "off" = "on" := by
      rw [h1]
      decide
    rw [if_pos h1, if_neg h2]
  · rw [if_neg h1]
    split <;> rfl

end DacHalControl

/-! ## The claims -/

/-- C1: in both services, a feature that is not in the list of supported features is
refused: `setFeatureValue` returns `false` for every value and leaves the whole state
(files, property store, parameters sent to the HAL) as it was, and `getFeatureValue`
returns `-1`. -/
theorem unsupported_feature_is_refused (cfg : Config) (a : DacAdvancedControl)
    (fa : AdvancedFeature) (h : DacHalControl) (fh : HalFeature) (value : Int)
    (ha : fa ∉ a.mSupportedAdvancedFeatures) (hh : fh ∉ h.mSupportedHalFeatures) :
    DacAdvancedControl.setFeatureValue cfg a fa value = (false, a) ∧
    DacAdvancedControl.getFeatureValue cfg a fa = .ok (some (-1)) ∧
    DacHalControl.setFeatureValue cfg h fh value = (false, h) ∧
    DacHalControl.getFeatureValue cfg h fh = .ok (-1) := by
  refine ⟨?_, ?_, ?_, ?_⟩
  · simp only [DacAdvancedControl.setFeatureValue, ha, not_false_eq_true, if_true]
  · simp only [DacAdvancedControl.getFeatureValue, ha, not_false_eq_true, if_true]
  · exact DacHalControl.setFeatureValue_unsupported cfg h fh value hh
  · simp only [DacHalControl.getFeatureValue, hh, not_false_eq_true, if_true]

theorem unsupported_feature_is_refused_witness :
    AdvancedFeature.HifiMode ∉ bareAdvanced.mSupportedAdvancedFeatures ∧
    HalFeature.SoundPreset ∉ sampleService.mSupportedHalFeatures ∧
    DacAdvancedControl.setFeatureValue sampleConfig bareAdvanced .HifiMode 3 = (false, bareAdvanced) ∧
    DacAdvancedControl.getFeatureValue sampleConfig bareAdvanced .HifiMode = .ok (some (-1)) ∧
    DacHalControl.setFeatureValue sampleConfig sampleService .SoundPreset 3
      = (false, sampleService) ∧
    DacHalControl.getFeatureValue sampleConfig sampleService .SoundPreset = .ok (-1) :=
  ⟨by decide, by decide,
    unsupported_feature_is_refused sampleConfig bareAdvanced .HifiMode sampleService .SoundPreset
      3 (by decide) (by decide)⟩

/-- C2, as the code has it: for a supported feature among DigitalFilter, SoundPreset,
BalanceLeft and BalanceRight and every `int32_t` value `v`, if `setFeatureValue(feature, v)`
returns `true` and the property store takes the write that call makes (`property_set`
answers 0), then the `getFeatureValue(feature)` that follows returns `v`. -/
theorem mirrored_value_round_trip (cfg : Config) (s : DacHalControl) (f : HalFeature) (v : Int)
    (hf : f = .DigitalFilter ∨ f = .SoundPreset ∨ f = .BalanceLeft ∨ f = .BalanceRight)
    (hs : f ∈ s.mSupportedHalFeatures) (hv : isInt32 v)
    (hret : (DacHalControl.setFeatureValue cfg s f v).1 = true)
    (hacc : ∀ pv property, DacHalControl.setTarget cfg f v = some (pv, property) →
      (property_set s.props property pv.value).1 = 0) :
    DacHalControl.getFeatureValue cfg (DacHalControl.setFeatureValue cfg s f v).2 f = .ok v := by
  obtain ⟨key, property, ht, hget⟩ := DacHalControl.setTarget_mirrored cfg f v hf
  have h0 : s.props.status property (to_string v) = 0 := by
    have := hacc _ _ ht
    rwa [property_set_fst] at this
  have hmem : f ∈ (DacHalControl.setFeatureValue cfg s f v).2.mSupportedHalFeatures := by
    rw [(DacHalControl.setFeatureValue_members cfg s f v).1]
    exact hs
  rw [hget _ hmem, (DacHalControl.setFeatureValue_true cfg s f v _ _ hs ht hret).2]
  have hval : (property_set s.props property (to_string v)).2.value property = to_string v :=
    property_set_accepted _ _ _ h0
  simp only [property_get, hval, to_string_ne_empty v, if_false]
  exact stoi_to_string v hv

theorem mirrored_value_round_trip_witness :
    HalFeature.DigitalFilter ∈ sampleService.mSupportedHalFeatures ∧ isInt32 (-2147483648) ∧
    (DacHalControl.setFeatureValue sampleConfig sampleService .DigitalFilter (-2147483648)).1
      = true ∧
    DacHalControl.getFeatureValue sampleConfig
      (DacHalControl.setFeatureValue sampleConfig sampleService .DigitalFilter (-2147483648)).2
      .DigitalFilter = .ok (-2147483648) :=
  ⟨by decide, by decide, by decide,
    mirrored_value_round_trip sampleConfig sampleService .DigitalFilter (-2147483648)
      (Or.inl rfl) (by decide) (by decide) (by decide)
      (fun pv property _ => by rw [property_set_fst]; rfl)⟩

/-- C2 as stated fails: on a service whose property store refuses writes, the HAL
accepts DigitalFilter = 5, `setFeatureValue` returns `true`, and the following
`getFeatureValue(DigitalFilter)` returns 0. -/
theorem mirrored_value_lost_when_store_refuses :
    HalFeature.DigitalFilter ∈ mutedService.mSupportedHalFeatures ∧ isInt32 5 ∧
    (DacHalControl.setFeatureValue sampleConfig mutedService .DigitalFilter 5).1 = true ∧
    DacHalControl.getFeatureValue sampleConfig
      (DacHalControl.setFeatureValue sampleConfig mutedService .DigitalFilter 5).2
      .DigitalFilter = .ok 0 ∧
    DacHalControl.getFeatureValue sampleConfig
      (DacHalControl.setFeatureValue sampleConfig mutedService .DigitalFilter 5).2
      .DigitalFilter ≠ .ok 5 := by
  refine ⟨by decide, by decide, by decide, by decide, by decide⟩

/-- C3, as the code has it: QuadDAC is a two-state feature. With QuadDAC supported,
`SET_DAC_ON_COMMAND` being the text `on` and `SET_DAC_OFF_COMMAND` the text `off`, if
`setFeatureValue(QuadDAC, v)` returns `true` and the property store takes the write
that call makes, then the `getFeatureValue(QuadDAC)` that follows returns 1 when `v`
is 1 and 0 for every other `v`; so it returns `v` exactly for `v` = 0 and `v` = 1.
The one parameter sent to the HAL has the key `DAC_COMMAND` and the value `off` for
`v` = 0, `on` for `v` = 1 and the empty string for every other `v`, and that same
text is what the property holds afterwards. -/
theorem quadDAC_round_trip (cfg : Config) (s : DacHalControl) (v : Int)
    (hs : HalFeature.QuadDAC ∈ s.mSupportedHalFeatures)
    (hon : cfg.SET_DAC_ON_COMMAND = "on") (hoff : cfg.SET_DAC_OFF_COMMAND = "off")
    (hret : (DacHalControl.setFeatureValue cfg s .QuadDAC v).1 = true)
    (hacc : ∀ pv property, DacHalControl.setTarget cfg .QuadDAC v = some (pv, property) →
      (property_set s.props property pv.value).1 = 0) :
    DacHalControl.getFeatureValue cfg (DacHalControl.setFeatureValue cfg s .QuadDAC v).2 .QuadDAC
      = .ok (if v = 1 then 1 else 0) ∧
    (DacHalControl.getFeatureValue cfg (DacHalControl.setFeatureValue cfg s .QuadDAC v).2 .QuadDAC
      = .ok v ↔ (v = 0 ∨ v = 1)) ∧
    (DacHalControl.setFeatureValue cfg s .QuadDAC v).2.sent
      = s.sent ++ [[{ key := cfg.DAC_COMMAND,
                      value := if v = 0 then "off" else if v = 1 then "on" else "" }]] ∧
    (DacHalControl.setFeatureValue cfg s .QuadDAC v).2.props.value cfg.PROPERTY_HIFI_DAC_ENABLED
      = (if v = 0 then "off" else if v = 1 then "on" else "") ∧
    (v ≠ 0 → v ≠ 1 →
      (DacHalControl.setFeatureValue cfg s .QuadDAC v).2.sent
        = s.sent ++ [[{ key := cfg.DAC_COMMAND, value := "" }]] ∧
      (DacHalControl.setFeatureValue cfg s .QuadDAC v).2.props.value
        cfg.PROPERTY_HIFI_DAC_ENABLED = "") := by
  have ht : DacHalControl.setTarget cfg .QuadDAC v
      = some ({ key := cfg.DAC_COMMAND,
                value := if v = 0 then "off" else if v = 1 then "on" else "" },
              cfg.PROPERTY_HIFI_DAC_ENABLED) := by
    simp only [DacHalControl.setTarget, if_true, hon, hoff]
  have h0 := hacc _ _ ht
  rw [property_set_fst] at h0
  have hstate := (DacHalControl.setFeatureValue_true cfg s .QuadDAC v _ _ hs ht hret).2
  have hval := property_set_accepted _ _ _ h0
  have hsent : (DacHalControl.setFeatureValue cfg s .QuadDAC v).2.sent
      = s.sent ++ [[{ key := cfg.DAC_COMMAND,
                      value := if v = 0 then "off" else if v = 1 then "on" else "" }]] := by
    rw [hstate]
  have hprop : (DacHalControl.setFeatureValue cfg s .QuadDAC v).2.props.value
      cfg.PROPERTY_HIFI_DAC_ENABLED
      = (if v = 0 then "off" else if v = 1 then "on" else "") := by
    rw [hstate]
    exact hval
  have hmain : DacHalControl.getFeatureValue cfg
      (DacHalControl.setFeatureValue cfg s .QuadDAC v).2 .QuadDAC
      = .ok (if v = 1 then 1 else 0) := by
    have hmem : HalFeature.QuadDAC ∈
        (DacHalControl.setFeatureValue cfg s .QuadDAC v).2.mSupportedHalFeatures := by
      rw [(DacHalControl.setFeatureValue_members cfg s .QuadDAC v).1]
      exact hs
    rw [DacHalControl.getFeatureValue_quadDAC cfg _ hmem]
    simp only [property_get, hprop]
    by_cases h1 : v = 1
    · have hne : ¬ v = 0 := by omega
      simp only [h1, hne, if_true, if_false]
      decide
    · by_cases h2 : v = 0
      · simp only [h2, if_true]
        decide
      · simp only [h1, h2, if_false, if_true]
        decide
  refine ⟨hmain, ?_, hsent, hprop, ?_⟩
  · rw [hmain]
    constructor
    · intro h
      injection h with h
      by_cases h1 : v = 1
      · exact Or.inr h1
      · rw [if_neg h1] at h
        exact Or.inl h.symm
    · rintro (h | h) <;> simp [h]
  · intro h0v h1v
    refine ⟨?_, ?_⟩
    · rw [hsent, if_neg h0v, if_neg h1v]
    · rw [hprop, if_neg h0v, if_neg h1v]

theorem quadDAC_round_trip_witness :
    HalFeature.QuadDAC ∈ sampleService.mSupportedHalFeatures ∧
    (DacHalControl.setFeatureValue sampleConfig sampleService .QuadDAC 1).1 = true ∧
    DacHalControl.getFeatureValue sampleConfig
      (DacHalControl.setFeatureValue sampleConfig sampleService .QuadDAC 1).2 .QuadDAC = .ok 1 ∧
    (DacHalControl.setFeatureValue sampleConfig sampleService .QuadDAC 7).1 = true ∧
    (DacHalControl.setFeatureValue sampleConfig sampleService .QuadDAC 7).2.sent
      = sampleService.sent ++ [[{ key := "hifi_dac", value := "" }]] ∧
    (DacHalControl.setFeatureValue sampleConfig sampleService .QuadDAC 7).2.props.value
      "persist.vendor.audio.hifi.on" = "" :=
  ⟨by decide, by decide,
    ((quadDAC_round_trip sampleConfig sampleService 1 (by decide) rfl rfl (by decide)
      (fun pv property _ => by rw [property_set_fst]; rfl)).2.1).mpr (Or.inr rfl),
    by decide,
    ((quadDAC_round_trip sampleConfig sampleService 7 (by decide) rfl rfl (by decide)
      (fun pv property _ => by rw [property_set_fst]; rfl)).2.2.2.2 (by decide) (by decide)).1,
    ((quadDAC_round_trip sampleConfig sampleService 7 (by decide) rfl rfl (by decide)
      (fun pv property _ => by rw [property_set_fst]; rfl)).2.2.2.2 (by decide) (by decide)).2⟩

/-- C3 as stated fails: on a service whose HAL and property store accept everything,
`setFeatureValue(QuadDAC, 2)` sends the empty text, returns `true`, and the following
`getFeatureValue(QuadDAC)` returns 0, not 2. It also fails for the value 1 on a service
whose property store refuses writes: `setFeatureValue(QuadDAC, 1)` returns `true` and
the following `getFeatureValue(QuadDAC)` returns 0. -/
theorem quadDAC_value_two_reads_back_zero :
    HalFeature.QuadDAC ∈ sampleService.mSupportedHalFeatures ∧ isInt32 2 ∧
    (DacHalControl.setFeatureValue sampleConfig sampleService .QuadDAC 2).1 = true ∧
    (DacHalControl.setFeatureValue sampleConfig sampleService .QuadDAC 2).2.sent
      = sampleService.sent ++ [[{ key := "hifi_dac", value := "" }]] ∧
    DacHalControl.getFeatureValue sampleConfig
      (DacHalControl.setFeatureValue sampleConfig sampleService .QuadDAC 2).2 .QuadDAC = .ok 0 ∧
    DacHalControl.getFeatureValue sampleConfig
      (DacHalControl.setFeatureValue sampleConfig sampleService .QuadDAC 2).2 .QuadDAC ≠ .ok 2 ∧
    HalFeature.QuadDAC ∈ mutedService.mSupportedHalFeatures ∧
    (DacHalControl.setFeatureValue sampleConfig mutedService .QuadDAC 1).1 = true ∧
    DacHalControl.getFeatureValue sampleConfig
      (DacHalControl.setFeatureValue sampleConfig mutedService .QuadDAC 1).2 .QuadDAC = .ok 0 := by
  refine ⟨by decide, by decide, by decide, by decide, by decide, by decide, by decide,
    by decide, by decide⟩

/-- C4, as the code has it: on every service object (built by the constructor, then
any calls), for every supported feature and every value, `setFeatureValue` hands
exactly one key/value parameter to the HAL and returns `true` if and only if the HAL
answers `OK`; when the answer is `OK` it calls `property_set` once, on the feature's
property and with exactly the string sent to the HAL, so the property holds that
string whenever the store takes the write (and the store is unchanged when it refuses
it); when the answer is not `OK` the property store is left unchanged. -/
theorem setFeatureValue_forwards_and_mirrors (cfg : Config) (s : DacHalControl)
    (f : HalFeature) (v : Int) (hr : DacHalControl.Reachable cfg s)
    (hs : f ∈ s.mSupportedHalFeatures) :
    ∃ pv property, DacHalControl.setTarget cfg f v = some (pv, property) ∧
      (DacHalControl.setFeatureValue cfg s f v).2.sent = s.sent ++ [[pv]] ∧
      ((DacHalControl.setFeatureValue cfg s f v).1 = true ↔
        s.mAudioClient.setParameters s.sent [pv] = .OK) ∧
      (s.mAudioClient.setParameters s.sent [pv] = .OK →
        (DacHalControl.setFeatureValue cfg s f v).2.props
          = (property_set s.props property pv.value).2 ∧
        ((property_set s.props property pv.value).1 = 0 →
          (DacHalControl.setFeatureValue cfg s f v).2.props.value property = pv.value) ∧
        ((property_set s.props property pv.value).1 ≠ 0 →
          (DacHalControl.setFeatureValue cfg s f v).2.props = s.props)) ∧
      (s.mAudioClient.setParameters s.sent [pv] ≠ .OK →
        (DacHalControl.setFeatureValue cfg s f v).2.props = s.props) := by
  have hpub : f ∈ publishOrder := (DacHalControl.reachable_tracks cfg s hr).1.subset hs
  obtain ⟨pv, property, ht⟩ := DacHalControl.setTarget_published cfg f v hpub
  refine ⟨pv, property, ht, ?_⟩
  rw [DacHalControl.setFeatureValue_supported cfg s f v pv property hs ht]
  by_cases hok : s.mAudioClient.setParameters s.sent [pv] = .OK
  · rw [if_pos hok]
    refine ⟨rfl, ⟨fun _ => hok, fun _ => rfl⟩, fun _ => ⟨rfl, ?_, ?_⟩, fun h => absurd hok h⟩
    · intro h0
      rw [property_set_fst] at h0
      exact property_set_accepted _ _ _ h0
    · intro h0
      rw [property_set_fst] at h0
      exact property_set_refused _ _ _ h0
  · rw [if_neg hok]
    refine ⟨rfl, ⟨fun h => ?_, fun h => absurd h hok⟩, fun h => absurd h hok, fun _ => rfl⟩
    cases h

theorem setFeatureValue_forwards_and_mirrors_witness :
    DacHalControl.Reachable sampleConfig sampleService ∧
    HalFeature.BalanceLeft ∈ sampleService.mSupportedHalFeatures ∧
    ∃ pv property, DacHalControl.setTarget sampleConfig .BalanceLeft (-4) = some (pv, property) ∧
      (DacHalControl.setFeatureValue sampleConfig sampleService .BalanceLeft (-4)).2.sent
        = sampleService.sent ++ [[pv]] ∧
      ((DacHalControl.setFeatureValue sampleConfig sampleService .BalanceLeft (-4)).1 = true ↔
        sampleService.mAudioClient.setParameters sampleService.sent [pv] = .OK) := by
  have hreach : DacHalControl.Reachable sampleConfig sampleService :=
    ⟨sampleHal, openStore, [], sampleService, rfl, rfl⟩
  obtain ⟨pv, property, h1, h2, h3, _⟩ :=
    setFeatureValue_forwards_and_mirrors sampleConfig sampleService .BalanceLeft (-4) hreach
      (by decide)
  exact ⟨hreach, by decide, pv, property, h1, h2, h3⟩

/-- C4 as stated fails: on a service whose property store refuses writes, the HAL
answers `OK` to DigitalFilter = 5 (the text `5` under key `ess_filter` is what was
sent and `setFeatureValue` returns `true`), yet the feature's property does not hold
the text `5` afterwards: the store is as it was. -/
theorem property_not_set_when_store_refuses :
    HalFeature.DigitalFilter ∈ mutedService.mSupportedHalFeatures ∧
    DacHalControl.setTarget sampleConfig .DigitalFilter 5
      = some ({ key := "ess_filter", value := "5" }, "persist.vendor.audio.hifi.filter") ∧
    mutedService.mAudioClient.setParameters mutedService.sent
      [{ key := "ess_filter", value := "5" }] = .OK ∧
    (DacHalControl.setFeatureValue sampleConfig mutedService .DigitalFilter 5).1 = true ∧
    (DacHalControl.setFeatureValue sampleConfig mutedService .DigitalFilter 5).2.props.value
      "persist.vendor.audio.hifi.filter" ≠ "5" ∧
    (DacHalControl.setFeatureValue sampleConfig mutedService .DigitalFilter 5).2.props.value
      "persist.vendor.audio.hifi.filter" = mutedService.props.value
      "persist.vendor.audio.hifi.filter" := by
  refine ⟨by decide, by decide, by decide, by decide, by decide, by decide⟩

/-- C6: whatever the HAL answered to the constructor, on the object it leaves behind a
feature is in `mSupportedHalFeatures` if and only if it is a key of `mSupportedStates`
(so `getSupportedHalFeatureValues` answers exactly for the features that
`setFeatureValue` and `getFeatureValue` accept), no feature occurs twice in the list,
and no sequence of later calls of the four RPC methods changes the list or the map. -/
theorem supported_set_is_static (cfg : Config) (hal : AudioHal) (props : PropertyStore)
    (s : DacHalControl) (hc : DacHalControl.construct cfg hal props = .ok s) :
    (∀ f, f ∈ s.mSupportedHalFeatures ↔ (s.mSupportedStates f).isSome = true) ∧
    (∀ f, f ∈ DacHalControl.getSupportedHalFeatures s ↔
      (DacHalControl.getSupportedHalFeatureValues s f).isSome = true) ∧
    (∀ f, DacHalControl.getSupportedHalFeatureValues s f = none →
      ∀ v, DacHalControl.setFeatureValue cfg s f v = (false, s) ∧
        DacHalControl.getFeatureValue cfg s f = .ok (-1)) ∧
    s.mSupportedHalFeatures.Nodup ∧
    (∀ calls s1, DacHalControl.run cfg s calls = .ok s1 →
      s1.mSupportedHalFeatures = s.mSupportedHalFeatures ∧
      s1.mSupportedStates = s.mSupportedStates) := by
  obtain ⟨t, _⟩ := DacHalControl.construct_spec cfg hal props s hc
  refine ⟨t.2, t.2, ?_, ?_, ?_⟩
  · intro f hnone v
    have hnot : f ∉ s.mSupportedHalFeatures := by
      intro hm
      have := (t.2 f).mp hm
      simp only [DacHalControl.getSupportedHalFeatureValues] at hnone
      rw [hnone] at this
      cases this
    exact ⟨DacHalControl.setFeatureValue_unsupported cfg s f v hnot, by
      simp only [DacHalControl.getFeatureValue, hnot, not_false_eq_true, if_true]⟩
  · exact List.Nodup.sublist t.1 (by decide)
  · intro calls s1 hrun
    obtain ⟨h1, h2, _⟩ := DacHalControl.run_members cfg calls s s1 hrun
    exact ⟨h1, h2⟩

theorem supported_set_is_static_witness :
    DacHalControl.construct sampleConfig sampleHal openStore = .ok sampleService ∧
    sampleService.mSupportedHalFeatures = [.QuadDAC, .DigitalFilter, .BalanceLeft, .BalanceRight] ∧
    (∀ f, f ∈ sampleService.mSupportedHalFeatures ↔
      (sampleService.mSupportedStates f).isSome = true) ∧
    sampleService.mSupportedHalFeatures.Nodup :=
  ⟨rfl, by decide,
    (supported_set_is_static sampleConfig sampleHal openStore sampleService rfl).1,
    (supported_set_is_static sampleConfig sampleHal openStore sampleService rfl).2.2.2.1⟩

/-- C7: when the constructor has run and the HAL answered the DigitalFilter
(respectively SoundPreset) query with `OK` and the list `b`, the states advertised for
that feature are, reply by reply in the order of `b`, the entries of `digital_filters`
(respectively `sound_presets`) whose value equals the reply's value; every advertised
entry is an entry of the table, and a reply whose value is in no entry adds nothing. -/
theorem advertised_states_come_from_table (cfg : Config) (hal : AudioHal)
    (props : PropertyStore) (s : DacHalControl) (key : String) (feature : HalFeature)
    (table : List KeyValue) (b : List ParameterValue)
    (hside : (key = cfg.SET_DIGITAL_FILTER_COMMAND ∧ feature = .DigitalFilter ∧
        table = digital_filters) ∨
      (key = cfg.SET_SOUND_PRESET_COMMAND ∧ feature = .SoundPreset ∧ table = sound_presets))
    (hc : DacHalControl.construct cfg hal props = .ok s)
    (hb : hal.getParameters [key] = (.OK, b)) :
    ∃ states, DacHalControl.getSupportedHalFeatureValues s feature = some states ∧
      states.states
        = b.flatMap (fun pv => table.filter (fun kv => decide (kv.value = pv.value))) ∧
      states.states = DacHalControl.matchTable table b ∧
      (∀ kv ∈ states.states, kv ∈ table ∧ ∃ pv ∈ b, kv.value = pv.value) ∧
      (∀ b1 pv b2, b = b1 ++ pv :: b2 → (∀ kv ∈ table, kv.value ≠ pv.value) →
        states.states = DacHalControl.matchTable table (b1 ++ b2)) := by
  obtain ⟨_, _, hdf, hsp, _, _⟩ := DacHalControl.construct_spec cfg hal props s hc
  have hmap : s.mSupportedStates feature
      = some { range := none, states := DacHalControl.matchTable table b } := by
    rcases hside with ⟨rfl, rfl, rfl⟩ | ⟨rfl, rfl, rfl⟩
    · exact hdf b hb
    · exact hsp b hb
  refine ⟨_, hmap, DacHalControl.matchTable_eq table b, rfl, ?_, ?_⟩
  · intro kv hkv
    simp only [DacHalControl.matchTable_eq, List.mem_flatMap, List.mem_filter,
      decide_eq_true_eq] at hkv
    obtain ⟨pv, hpv, hmem, heq⟩ := hkv
    exact ⟨hmem, pv, hpv, heq⟩
  · intro b1 pv b2 hsplit hno
    have hnil : table.filter (fun kv => decide (kv.value = pv.value)) = [] := by
      rw [List.filter_eq_nil_iff]
      intro kv hkv
      simpa using hno kv hkv
    simp only [hsplit, DacHalControl.matchTable_eq, List.flatMap_append, List.flatMap_cons,
      hnil, List.nil_append]

theorem advertised_states_come_from_table_witness :
    DacHalControl.construct sampleConfig sampleHal openStore = .ok sampleService ∧
    sampleHal.getParameters ["ess_filter"]
      = (.OK, [⟨"ess_filter", "2"⟩, ⟨"ess_filter", "7"⟩, ⟨"ess_filter", "0"⟩]) ∧
    ∃ states, DacHalControl.getSupportedHalFeatureValues sampleService .DigitalFilter
        = some states ∧
      states.states = [⟨"Slow", "2"⟩, ⟨"Short", "0"⟩] := by
  obtain ⟨states, h1, h2, _⟩ :=
    advertised_states_come_from_table sampleConfig sampleHal openStore sampleService
      "ess_filter" .DigitalFilter digital_filters
      [⟨"ess_filter", "2"⟩, ⟨"ess_filter", "7"⟩, ⟨"ess_filter", "0"⟩]
      (Or.inl ⟨rfl, rfl, rfl⟩) rfl rfl
  exact ⟨rfl, rfl, states, h1, h2.trans (by decide)⟩

/-- C8: on a supported feature (AVCVolume or HifiMode) `DacAdvancedControl::setFeatureValue`
returns the status of its `property_set` call cast to `bool`: `true` exactly when the
status is not 0 and `false` exactly when it is 0, whatever the file system does with
the write. `DacHalControl::setFeatureValue` has the opposite sense: on a supported
feature it returns `true` exactly when its HAL call succeeded. -/
theorem setFeatureValue_returns_property_status (cfg : Config) (s : DacAdvancedControl)
    (feature : AdvancedFeature) (property : String) (v : Int)
    (hf : (feature = .AVCVolume ∧ property = cfg.PROPERTY_HIFI_DAC_AVC_VOLUME) ∨
      (feature = .HifiMode ∧ property = cfg.PROPERTY_HIFI_DAC_MODE))
    (hs : feature ∈ s.mSupportedAdvancedFeatures) :
    ((DacAdvancedControl.setFeatureValue cfg s feature v).1 = true ↔
      (property_set s.props property (to_string v)).1 ≠ 0) ∧
    ((DacAdvancedControl.setFeatureValue cfg s feature v).1 = false ↔
      (property_set s.props property (to_string v)).1 = 0) ∧
    (∀ files : FileSystem,
      (DacAdvancedControl.setFeatureValue cfg { s with files := files } feature v).1
        = (DacAdvancedControl.setFeatureValue cfg s feature v).1) ∧
    (∀ (h : DacHalControl) (fh : HalFeature) (value : Int) (pv : ParameterValue) (name : String),
      fh ∈ h.mSupportedHalFeatures → DacHalControl.setTarget cfg fh value = some (pv, name) →
      ((DacHalControl.setFeatureValue cfg h fh value).1 = true ↔
        h.mAudioClient.setParameters h.sent [pv] = .OK)) := by
  have hfst : ∀ t : DacAdvancedControl, feature ∈ t.mSupportedAdvancedFeatures →
      (DacAdvancedControl.setFeatureValue cfg t feature v).1
        = decide ((property_set t.props property (to_string v)).1 ≠ 0) := by
    intro t ht
    rcases hf with ⟨rfl, rfl⟩ | ⟨rfl, rfl⟩
    · exact (DacAdvancedControl.setFeatureValue_fst cfg t v).1 ht
    · exact (DacAdvancedControl.setFeatureValue_fst cfg t v).2 ht
  refine ⟨?_, ?_, ?_, ?_⟩
  · rw [hfst s hs]
    simp
  · rw [hfst s hs]
    simp
  · intro files
    rw [hfst s hs, hfst { s with files := files } hs]
  · intro h fh value pv name hmem ht
    rw [DacHalControl.setFeatureValue_supported cfg h fh value pv name hmem ht]
    by_cases hok : h.mAudioClient.setParameters h.sent [pv] = .OK
    · rw [if_pos hok]
      exact ⟨fun _ => hok, fun _ => rfl⟩
    · rw [if_neg hok]
      exact ⟨fun x => Bool.noConfusion x, fun x => absurd x hok⟩

theorem setFeatureValue_returns_property_status_witness :
    AdvancedFeature.AVCVolume ∈ sampleAdvanced.mSupportedAdvancedFeatures ∧
    (property_set sampleAdvanced.props "persist.vendor.audio.hifi.avc" (to_string (-7))).1 = 0 ∧
    (DacAdvancedControl.setFeatureValue sampleConfig sampleAdvanced .AVCVolume (-7)).1 = false :=
  ⟨by decide, by decide,
    ((setFeatureValue_returns_property_status sampleConfig sampleAdvanced .AVCVolume
      "persist.vendor.audio.hifi.avc" (-7) (Or.inl ⟨rfl, rfl⟩) (by decide)).2.1).mpr
      (by decide)⟩

end Dac
